import Mathlib

/-!
Shallow embedding of the ddnsbridge4extdns request-processing core.

Go strings are modelled as `List Char` (the programs only manipulate
ASCII DNS names, so byte-level and rune-level iteration coincide);
Go `net.IP` values are modelled as byte lists, with `Option` capturing
Go's nil slices.  Fallible Go functions returning `error` are modelled
with `Except` / `Option` results carrying the error text.
-/

namespace DdnsBridge

/-- Model of a Go string (an ASCII byte/rune sequence). -/
abbrev Str := List Char

instance {ε α : Type} [DecidableEq ε] [DecidableEq α] : DecidableEq (Except ε α) := fun a b =>
  match a, b with
  | .error x, .error y =>
    if h : x = y then .isTrue (by rw [h]) else .isFalse (fun hx => by cases hx; exact h rfl)
  | .error _, .ok _ => .isFalse (fun hx => by cases hx)
  | .ok _, .error _ => .isFalse (fun hx => by cases hx)
  | .ok x, .ok y =>
    if h : x = y then .isTrue (by rw [h]) else .isFalse (fun hx => by cases hx; exact h rfl)

namespace Config

/-- Go `strings.HasSuffix s suf` on the list model. -/
def hasSuffix (s suf : Str) : Bool := suf.isSuffixOf s

/-- The normalization step used by `Config.IsZoneAllowed`
(src/pkg/config/config.go): ensure the zone ends with a dot. -/
def ensureDot (z : Str) : Str := if hasSuffix z ['.'] then z else z ++ ['.']

/-- Go `Config.IsZoneAllowed` (src/pkg/config/config.go, lines 71-87):
normalize the requested zone and each allowed zone with a trailing dot,
then accept on exact equality or on a `"." + allowedZone` suffix match. -/
def IsZoneAllowed (allowedZones : List Str) (zone : Str) : Bool :=
  let z := ensureDot zone
  allowedZones.any fun allowedZone =>
    let a := ensureDot allowedZone
    z == a || hasSuffix z ('.' :: a)

end Config

namespace Update

/-- Model of a Go `net.IP` value: the byte slice. -/
abbrev IP := List Nat

/-- wire constants of the miekg/dns package used by the parser. -/
def typeA : Nat := 1

def typeAAAA : Nat := 28

def classINET : Nat := 1

def classNONE : Nat := 254

def classANY : Nat := 255

def opcodeUpdate : Nat := 5

/-- Go `update.UpdateType` (src/pkg/update/parser.go). -/
inductive UpdateType
  | create
  | update
  | delete
deriving DecidableEq, Repr

/-- Go `update.DNSUpdate` (src/pkg/update/parser.go).  `ip = none`
models a nil `net.IP` slice. -/
structure DNSUpdate where
  type : UpdateType
  recordType : Nat
  name : Str
  zone : Str
  ip : Option IP
  ttl : Nat
deriving DecidableEq, Repr

/-- The dynamic Go type of a resource record: a `*dns.A` (whose `A`
field may be nil when the record carried no RDATA), a `*dns.AAAA`,
or any other concrete record type.  The `rr.(*dns.A)` type assertion
of the source succeeds exactly on the `a` constructor. -/
inductive RRData
  | a (ip : Option IP)
  | aaaa (ip : Option IP)
  | other
deriving DecidableEq, Repr

/-- The `dns.RR_Header` fields read by the parser. -/
structure RRHeader where
  name : Str
  rrtype : Nat
  cls : Nat
  ttl : Nat
deriving DecidableEq, Repr

/-- A resource record of the update section: header plus dynamic value. -/
structure RR where
  header : RRHeader
  rdata : RRData
deriving DecidableEq, Repr

/-- The zone-declaration (Question) entries; only the name is read. -/
structure Question where
  name : Str
deriving DecidableEq, Repr

/-- The fields of a `dns.Msg` read by `Parser.Parse`. -/
structure Msg where
  opcode : Nat
  question : List Question
  ns : List RR
deriving DecidableEq, Repr

/-- The class switch of `Parser.parseRR`: ANY and NONE mean delete, IN
means delete when TTL = 0 and create otherwise; any other class is
unsupported (`none`). -/
def classifyClass (cls ttl : Nat) : Option UpdateType :=
  if cls = classANY then some .delete
  else if cls = classNONE then some .delete
  else if cls = classINET then some (if ttl = 0 then .delete else .create)
  else none

/-- Go `Parser.parseRR` (src/pkg/update/parser.go, lines 72-128). -/
def parseRR (rr : RR) (zone : Str) : Except Str (Option DNSUpdate) :=
  let header := rr.header
  match classifyClass header.cls header.ttl with
  | none => .error "unsupported class".toList
  | some ty =>
    let upd : DNSUpdate :=
      { type := ty, recordType := header.rrtype, name := header.name,
        zone := zone, ip := none, ttl := header.ttl }
    if header.rrtype = typeA then
      match rr.rdata with
      | .a ip => .ok (some { upd with ip := ip })
      | _ => if ty ≠ .delete then .error "invalid A record".toList else .ok (some upd)
    else if header.rrtype = typeAAAA then
      match rr.rdata with
      | .aaaa ip => .ok (some { upd with ip := ip })
      | _ => if ty ≠ .delete then .error "invalid AAAA record".toList else .ok (some upd)
    else
      .ok none

/-- The record loop of `Parser.Parse`: failed records are skipped,
`nil` results are dropped, parsed updates are appended in order. -/
def collectUpdates (zone : Str) (rrs : List RR) : List DNSUpdate :=
  rrs.foldl (fun acc rr =>
    match parseRR rr zone with
    | .error _ => acc
    | .ok none => acc
    | .ok (some u) => acc ++ [u]) []

/-- The per-record contribution of the loop, as an `Option`. -/
def parsedUpdate (zone : Str) (rr : RR) : Option DNSUpdate :=
  match parseRR rr zone with
  | .ok (some u) => some u
  | _ => none

/-- Go `Parser.Parse` (src/pkg/update/parser.go, lines 40-69). -/
def Parse (msg : Msg) : Except Str (List DNSUpdate) :=
  if msg.opcode ≠ opcodeUpdate then .error "not a DNS UPDATE message".toList
  else
    match msg.question with
    | [] => .error "UPDATE message has no zone section".toList
    | q :: _ =>
      let updates := collectUpdates q.name msg.ns
      if updates = [] then .error "no valid A or AAAA updates found in message".toList
      else .ok updates

/-- Go `strings.TrimSuffix`. -/
def trimSuffix (s suf : Str) : Str :=
  if Config.hasSuffix s suf then s.take (s.length - suf.length) else s

/-- Go `DNSUpdate.GetHostname` (src/pkg/update/parser.go, lines 160-172). -/
def GetHostname (u : DNSUpdate) : Str :=
  let name := trimSuffix u.name ['.']
  let zone := trimSuffix u.zone ['.']
  if Config.hasSuffix name ('.' :: zone) then trimSuffix name ('.' :: zone)
  else if name = zone then ['@']
  else name

end Update

namespace Handler

open Update

/-- dns rcode constants used by `ServeDNS` (miekg/dns). -/
def rcodeSuccess : Nat := 0

def rcodeFormatError : Nat := 1

def rcodeServerFailure : Nat := 2

def rcodeNotImplemented : Nat := 4

def rcodeRefused : Nat := 5

/-- The apply loop of `Handler.ServeDNS` (src/internal/handler/handler.go,
lines 84-96): updates are applied in order; the first failure stops the
loop with ServerFailure, keeping the state reached so far; if all apply,
the status is Success.  `apply` abstracts `k8sClient.ApplyUpdate` as a
state transformer that can fail. -/
def applyLoop {σ E : Type} (apply : σ → DNSUpdate → Except E σ) (st : σ) :
    List DNSUpdate → Nat × σ
  | [] => (rcodeSuccess, st)
  | u :: rest =>
    match apply st u with
    | .error _ => (rcodeServerFailure, st)
    | .ok st' => applyLoop apply st' rest

/-- Sequential application of a list of updates, stopping at the first
error (used to state which prefix of a message was applied). -/
def applyFold {σ E : Type} (apply : σ → DNSUpdate → Except E σ) (st : σ) :
    List DNSUpdate → Except E σ
  | [] => .ok st
  | u :: rest =>
    match apply st u with
    | .error e => .error e
    | .ok st' => applyFold apply st' rest

/-- Go `Handler.ServeDNS` (src/internal/handler/handler.go, lines 32-101),
modelled as a function from the inbound message and the store state to
the reply status code and the resulting state.  Response writing and
TSIG response signing are transport concerns outside the model. -/
def ServeDNS {σ E : Type} (apply : σ → DNSUpdate → Except E σ)
    (allowedZones : List Str) (st : σ) (r : Msg) : Nat × σ :=
  if r.opcode ≠ opcodeUpdate then (rcodeNotImplemented, st)
  else
    match r.question with
    | [] => (rcodeFormatError, st)
    | q :: _ =>
      if ¬ Config.IsZoneAllowed allowedZones q.name then (rcodeRefused, st)
      else
        match Parse r with
        | .error _ => (rcodeFormatError, st)
        | .ok updates => applyLoop apply st updates

end Handler

namespace K8s

open Update

/-- Model of a Go `map[string]string` as an association list.  Go map
equality under `reflect.DeepEqual` is key-value-set equality, modelled
by the lookup test `mapEq` below. -/
abbrev LabelMap := List (Str × Str)

/-- Lookup in the map model (first match wins; entries built through
`mapInsert` have unique keys). -/
def mapGet (m : LabelMap) (k : Str) : Option Str :=
  (m.find? (fun p => p.1 == k)).map (fun p => p.2)

/-- Go `m[k] = v`: replace the value at an existing key, else append. -/
def mapInsert (m : LabelMap) (k v : Str) : LabelMap :=
  if (m.find? (fun p => p.1 == k)).isSome then
    m.map (fun p => if p.1 == k then (k, v) else p)
  else m ++ [(k, v)]

/-- `reflect.DeepEqual` on two Go string maps: the same key-value
mapping. -/
def mapEq (m1 m2 : LabelMap) : Bool :=
  ((m1 ++ m2).map (fun p => p.1)).all fun k => mapGet m1 k == mapGet m2 k

/-- One entry of `spec.endpoints` of a DNSEndpoint resource.  The
`targets` entries hold the formatted address of the Go code
(`upd.IP.String()`), modelled by the address value itself. -/
structure Endpoint where
  dnsName : Str
  recordType : Str
  recordTTL : Nat
  targets : List IP
deriving DecidableEq, Repr

/-- The parts of a DNSEndpoint resource this core reads or writes:
metadata name and labels, the endpoint spec, and the optimistic
concurrency token (`metadata.resourceVersion`, a number in the model;
0 meaning unset on a freshly built desired resource). -/
structure Resource where
  name : Str
  labels : LabelMap
  endpoints : List Endpoint
  resourceVersion : Nat
deriving DecidableEq, Repr

/-- Errors of the external resource store. -/
inductive StoreErr
  | notFound
  | conflict
  | other (msg : Str)
deriving DecidableEq, Repr

/-- Go `isNotFoundError` (src/pkg/k8s/client.go): `apierrors.IsNotFound`. -/
def isNotFoundError : StoreErr → Bool
  | .notFound => true
  | _ => false

/-- The external declarative resource store, an excluded collaborator of
the spec: get/create/update/delete-by-name operations over a state `σ`,
with a NotFound error signal and optimistic-concurrency tokens. -/
structure StoreOps (σ : Type) where
  get : σ → Str → Except StoreErr Resource
  create : σ → Resource → Except StoreErr σ
  updateRes : σ → Resource → Except StoreErr σ
  delete : σ → Str → Except StoreErr σ

/-- Go `strings.Split(client.String(), ":")[0]` — the host part of the
sender address. -/
def hostPart (addr : Str) : Str := addr.takeWhile (fun c => c ≠ ':')

/-- Go `isAlphanumericLower` (src/pkg/k8s/client.go, lines 247-249). -/
def isAlphanumericLower (r : Char) : Bool :=
  ('a' ≤ r && r ≤ 'z') || ('0' ≤ r && r ≤ '9')

/-- Go `dnsNameToK8sName` (src/pkg/k8s/client.go, lines 233-244):
lower-case (ASCII model of `strings.ToLower`), keep lowercase
alphanumerics and hyphens, map `.`/`_`/`:` to `-`, drop everything
else. -/
def dnsNameToK8sName (name : Str) : Str :=
  (name.map Char.toLower).filterMap fun r =>
    if isAlphanumericLower r || r == '-' then some r
    else if r == '.' || r == '_' || r == ':' then some '-'
    else none

/-- The `name[:len(name)-1]` step: remove one trailing dot if present. -/
def stripTrailingDot (s : Str) : Str :=
  if s.getLast? == some '.' then s.dropLast else s

/-- Go `sanitizeResourceName` (src/pkg/k8s/client.go, lines 193-214). -/
def sanitizeResourceName (hostname : Str) : Str :=
  let name := stripTrailingDot hostname
  let name := dnsNameToK8sName name
  let name :=
    match name with
    | [] => ([] : Str)
    | c :: rest => if !isAlphanumericLower c then "dns-".toList ++ (c :: rest) else c :: rest
  name.take 253

/-- Go `sanitizeLabel` (src/pkg/k8s/client.go, lines 216-230). -/
def sanitizeLabel (zone : Str) : Str :=
  let label := stripTrailingDot zone
  let label := dnsNameToK8sName label
  label.take 63

def managedByKey : Str := "app.kubernetes.io/managed-by".toList

def managedByValue : Str := "ddnsbridge4extdns".toList

def zoneLabelKey : Str := "ddnsbridge4extdns/zone".toList

def askByKey : Str := "ddnsbridge4extdns/ask-by".toList

/-- The label map built by `createOrUpdateEndpoint` (src/pkg/k8s/client.go,
lines 86-96): three default labels, then the operator's custom labels
inserted over them (custom labels take precedence).  The model fixes an
iteration order for the custom-label map, which is observable only for
duplicate keys a Go map cannot contain. -/
def buildLabels (customLabels : LabelMap) (clientAddr : Str) (zone : Str) : LabelMap :=
  customLabels.foldl (fun m kv => mapInsert m kv.1 kv.2)
    [(managedByKey, managedByValue),
      (zoneLabelKey, sanitizeLabel zone),
      (askByKey, sanitizeLabel (hostPart clientAddr))]

/-- The single endpoint entry of the desired resource
(src/pkg/k8s/client.go, lines 107-119).  A nil address renders as an
empty target in the model. -/
def desiredEndpoint (upd : DNSUpdate) : Endpoint :=
  { dnsName := upd.name
    recordType := if upd.recordType = 28 then "AAAA".toList else "A".toList
    recordTTL := upd.ttl
    targets := [upd.ip.getD []] }

/-- The desired DNSEndpoint resource built by `createOrUpdateEndpoint`. -/
def desiredResource (customLabels : LabelMap) (clientAddr : Str)
    (resourceName : Str) (upd : DNSUpdate) : Resource :=
  { name := resourceName
    labels := buildLabels customLabels clientAddr upd.zone
    endpoints := [desiredEndpoint upd]
    resourceVersion := 0 }

/-- Go `compareEndpoint` (src/pkg/k8s/client.go, lines 256-274): deep
equality of the labels and of the endpoint spec (the JSON summaries it
also returns are logging only and are not modelled). -/
def compareEndpoint (existing desired : Resource) : Bool × Bool :=
  (mapEq existing.labels desired.labels, existing.endpoints == desired.endpoints)

/-- The body of `createOrUpdateEndpoint` after the resource name is
derived (src/pkg/k8s/client.go, lines 77-152). -/
def createOrUpdateAt {σ : Type} (ops : StoreOps σ) (customLabels : LabelMap)
    (clientAddr : Str) (st : σ) (resourceName : Str) (upd : DNSUpdate) :
    Except Str (Bool × σ) :=
  let endpoint := desiredResource customLabels clientAddr resourceName upd
  match ops.get st resourceName with
  | .ok existing =>
    let cmp := compareEndpoint existing endpoint
    if cmp.1 && cmp.2 then .ok (false, st)
    else
      match ops.updateRes st { endpoint with resourceVersion := existing.resourceVersion } with
      | .ok st' => .ok (true, st')
      | .error _ => .error "failed to update DNSEndpoint".toList
  | .error e =>
    if !isNotFoundError e then .error "failed to get DNSEndpoint".toList
    else
      match ops.create st endpoint with
      | .ok st' => .ok (true, st')
      | .error _ => .error "failed to create DNSEndpoint".toList

/-- Go `Client.createOrUpdateEndpoint`: derive the resource name from the
update's hostname, then create or update. -/
def createOrUpdateEndpoint {σ : Type} (ops : StoreOps σ) (customLabels : LabelMap)
    (clientAddr : Str) (st : σ) (upd : DNSUpdate) : Except Str (Bool × σ) :=
  createOrUpdateAt ops customLabels clientAddr st
    (sanitizeResourceName (GetHostname upd)) upd

/-- The body of `deleteEndpoint` after the resource name is derived
(src/pkg/k8s/client.go, lines 154-170): not-found errors are ignored. -/
def deleteByName {σ : Type} (ops : StoreOps σ) (st : σ) (resourceName : Str) :
    Except Str σ :=
  match ops.delete st resourceName with
  | .ok st' => .ok st'
  | .error e =>
    if !isNotFoundError e then .error "failed to delete DNSEndpoint".toList
    else .ok st

/-- Go `Client.deleteEndpoint`. -/
def deleteEndpoint {σ : Type} (ops : StoreOps σ) (st : σ) (upd : DNSUpdate) :
    Except Str σ :=
  deleteByName ops st (sanitizeResourceName (GetHostname upd))

/-- Go `Client.ApplyUpdate` (src/pkg/k8s/client.go, lines 62-74). -/
def ApplyUpdate {σ : Type} (ops : StoreOps σ) (customLabels : LabelMap)
    (clientAddr : Str) (st : σ) (upd : DNSUpdate) : Except Str (Bool × σ) :=
  match upd.type with
  | .create => createOrUpdateEndpoint ops customLabels clientAddr st upd
  | .update => createOrUpdateEndpoint ops customLabels clientAddr st upd
  | .delete =>
    match deleteEndpoint ops st upd with
    | .ok st' => .ok (true, st')
    | .error e => .error e

/-- A concrete model of the resource store: resources keyed by name, a
NotFound signal, and a resourceVersion token checked on update and
bumped on every successful write. -/
abbrev ModelStore := List (Str × Resource)

def storeGet (st : ModelStore) (n : Str) : Except StoreErr Resource :=
  match st.find? (fun p => p.1 == n) with
  | some p => .ok p.2
  | none => .error .notFound

def storeCreate (st : ModelStore) (r : Resource) : Except StoreErr ModelStore :=
  if (st.find? (fun p => p.1 == r.name)).isSome then .error (.other "already exists".toList)
  else .ok (st ++ [(r.name, r)])

def storeUpdate (st : ModelStore) (r : Resource) : Except StoreErr ModelStore :=
  match st.find? (fun p => p.1 == r.name) with
  | none => .error .notFound
  | some p =>
    if p.2.resourceVersion ≠ r.resourceVersion then .error .conflict
    else
      .ok (st.map (fun q =>
        if q.1 == r.name then (r.name, { r with resourceVersion := r.resourceVersion + 1 })
        else q))

def storeDelete (st : ModelStore) (n : Str) : Except StoreErr ModelStore :=
  if (st.find? (fun p => p.1 == n)).isSome then .ok (st.filter (fun p => !(p.1 == n)))
  else .error .notFound

def modelOps : StoreOps ModelStore :=
  { get := storeGet, create := storeCreate, updateRes := storeUpdate, delete := storeDelete }

/-- Claim-side definition for C6, following the claim's words: strip a
trailing dot, lower-case, map every `.`, `_`, `:` to `-`, drop any
remaining character that is not lowercase-alphanumeric or hyphen. -/
def specSanitizeCore (s : Str) : Str :=
  ((if s.getLast? = some '.' then s.dropLast else s).map Char.toLower).filterMap fun c =>
    if c = '.' ∨ c = '_' ∨ c = ':' then some '-'
    else if ('a' ≤ c ∧ c ≤ 'z') ∨ ('0' ≤ c ∧ c ≤ '9') ∨ c = '-' then some c
    else none

/-- Claim-side for C6, read literally: "prepend a fixed marker prefix if
the result does not start with an alphanumeric character" — an empty
result does not start with an alphanumeric character, so it also
receives the marker. -/
def specMarkerStep (s : Str) : Str :=
  match s with
  | [] => "dns-".toList
  | c :: rest =>
    if ('a' ≤ c ∧ c ≤ 'z') ∨ ('0' ≤ c ∧ c ≤ '9') then c :: rest
    else "dns-".toList ++ (c :: rest)

/-- Claim-side resource-name transform exactly as C6 states it. -/
def specSanitizeName253 (s : Str) : Str := (specMarkerStep (specSanitizeCore s)).take 253

/-- Claim-side label transform exactly as C6 states it ("the same
computation truncated to at most 63 characters"). -/
def specSanitizeLabel63 (s : Str) : Str := (specMarkerStep (specSanitizeCore s)).take 63

/-- Amended marker step: the code prepends the marker only to a nonempty
result whose first character is not alphanumeric. -/
def specMarkerStepAmended (s : Str) : Str :=
  match s with
  | [] => []
  | c :: rest =>
    if ('a' ≤ c ∧ c ≤ 'z') ∨ ('0' ≤ c ∧ c ≤ '9') then c :: rest
    else "dns-".toList ++ (c :: rest)

end K8s

namespace Tsig

/-- Go `tsig.Validator` (src/unnamed/part_005): configured key name,
shared secret, and algorithm name. -/
structure Validator where
  keyName : Str
  secret : Str
  algorithm : Str
deriving DecidableEq, Repr

/-- The fields of the TSIG record read by `Validate`: the record's key
name (`tsig.Hdr.Name`) and its algorithm. -/
structure TsigRR where
  name : Str
  algorithm : Str
deriving DecidableEq, Repr

/-- The parts of a `dns.Msg` read by the validator: the optional TSIG
record (`msg.IsTsig()`) and the outcome of serializing the message
(`msg.Pack()`, which can fail: `.ok` carries the wire bytes, `.error`
the serialization error text). -/
structure TMsg where
  tsig : Option TsigRR
  pack : Except Str Str
deriving DecidableEq, Repr

/-- miekg/dns algorithm name constants. -/
def hmacSHA1 : Str := "hmac-sha1.".toList

def hmacSHA256 : Str := "hmac-sha256.".toList

def hmacSHA512 : Str := "hmac-sha512.".toList

def hmacMD5 : Str := "hmac-md5.sig-alg.reg.int.".toList

/-- Go `Validator.getAlgorithmName` (src/unnamed/part_005, lines 77-90). -/
def getAlgorithmName (v : Validator) : Str :=
  if v.algorithm = "hmac-sha1".toList then hmacSHA1
  else if v.algorithm = "hmac-sha256".toList then hmacSHA256
  else if v.algorithm = "hmac-sha512".toList then hmacSHA512
  else if v.algorithm = "hmac-md5".toList then hmacMD5
  else hmacSHA256

/-- Go `Validator.Validate` (src/unnamed/part_005, lines 26-55),
parametrized by the `dns.TsigVerify` library primitive `verify`
(wire bytes → secret → request MAC → optional error text).  The
`msg.Pack()` call between the algorithm check and the verification can
fail, yielding the "failed to pack message" error of lines 45-48. -/
def Validate (verify : Str → Str → Str → Option Str) (v : Validator)
    (msg : TMsg) (requestMAC : Str) : Option Str :=
  match msg.tsig with
  | none => some "message does not contain TSIG record".toList
  | some t =>
    if t.name ≠ v.keyName ++ ['.'] ∧ t.name ≠ v.keyName then
      some ("TSIG key name mismatch: expected ".toList ++ v.keyName ++
        ", got ".toList ++ t.name)
    else if t.algorithm ≠ getAlgorithmName v then
      some ("TSIG algorithm mismatch: expected ".toList ++ getAlgorithmName v ++
        ", got ".toList ++ t.algorithm)
    else
      match msg.pack with
      | .error perr => some ("failed to pack message: ".toList ++ perr)
      | .ok buf =>
        match verify buf v.secret requestMAC with
        | some e => some ("TSIG verification failed: ".toList ++ e)
        | none => none

end Tsig

end DdnsBridge

namespace DdnsBridge

namespace Config

theorem hasSuffix_iff (s suf : Str) : hasSuffix s suf = true ↔ suf <:+ s := by
  simp [hasSuffix, List.isSuffixOf_iff_suffix]

end Config

namespace Update

theorem classifyClass_eq_create {cls ttl : Nat}
    (h : classifyClass cls ttl = some .create) : cls = classINET ∧ ttl ≠ 0 := by
  unfold classifyClass at h
  split_ifs at h with h1 h2 h3 <;> simp_all

/-- Characterization of a successful `parseRR` that yields an intent. -/
theorem parseRR_ok_some {rr : RR} {zone : Str} {u : DNSUpdate}
    (h : parseRR rr zone = .ok (some u)) :
    ∃ ty, classifyClass rr.header.cls rr.header.ttl = some ty ∧
      u.type = ty ∧ u.recordType = rr.header.rrtype ∧ u.name = rr.header.name ∧
      u.zone = zone ∧ u.ttl = rr.header.ttl ∧
      ((∃ ip, rr.header.rrtype = typeA ∧ rr.rdata = .a ip ∧ u.ip = ip) ∨
        (∃ ip, rr.header.rrtype = typeAAAA ∧ rr.rdata = .aaaa ip ∧ u.ip = ip) ∨
        (ty = .delete ∧ u.ip = none)) := by
  obtain ⟨⟨nm, rt, cls, ttl⟩, rdata⟩ := rr
  rcases hcl : classifyClass cls ttl with _ | ty
  · simp [parseRR, hcl] at h
  · refine ⟨ty, rfl, ?_⟩
    simp only [parseRR, hcl] at h
    by_cases hA : rt = typeA
    · rw [if_pos hA] at h
      cases rdata with
      | a ip =>
        simp only [Except.ok.injEq, Option.some.injEq] at h
        subst h
        exact ⟨rfl, rfl, rfl, rfl, rfl, .inl ⟨ip, hA, rfl, rfl⟩⟩
      | aaaa ip =>
        by_cases hd : ty = UpdateType.delete
        · rw [if_neg (by simp [hd])] at h
          simp only [Except.ok.injEq, Option.some.injEq] at h
          subst h
          exact ⟨rfl, rfl, rfl, rfl, rfl, .inr (.inr ⟨hd, rfl⟩)⟩
        · rw [if_pos (by simp [hd])] at h
          cases h
      | other =>
        by_cases hd : ty = UpdateType.delete
        · rw [if_neg (by simp [hd])] at h
          simp only [Except.ok.injEq, Option.some.injEq] at h
          subst h
          exact ⟨rfl, rfl, rfl, rfl, rfl, .inr (.inr ⟨hd, rfl⟩)⟩
        · rw [if_pos (by simp [hd])] at h
          cases h
    · rw [if_neg hA] at h
      by_cases hAAAA : rt = typeAAAA
      · rw [if_pos hAAAA] at h
        cases rdata with
        | aaaa ip =>
          simp only [Except.ok.injEq, Option.some.injEq] at h
          subst h
          exact ⟨rfl, rfl, rfl, rfl, rfl, .inr (.inl ⟨ip, hAAAA, rfl, rfl⟩)⟩
        | a ip =>
          by_cases hd : ty = UpdateType.delete
          · rw [if_neg (by simp [hd])] at h
            simp only [Except.ok.injEq, Option.some.injEq] at h
            subst h
            exact ⟨rfl, rfl, rfl, rfl, rfl, .inr (.inr ⟨hd, rfl⟩)⟩
          · rw [if_pos (by simp [hd])] at h
            cases h
        | other =>
          by_cases hd : ty = UpdateType.delete
          · rw [if_neg (by simp [hd])] at h
            simp only [Except.ok.injEq, Option.some.injEq] at h
            subst h
            exact ⟨rfl, rfl, rfl, rfl, rfl, .inr (.inr ⟨hd, rfl⟩)⟩
          · rw [if_pos (by simp [hd])] at h
            cases h
      · rw [if_neg hAAAA] at h
        cases h

theorem collectUpdates_eq_filterMap (zone : Str) (rrs : List RR) :
    collectUpdates zone rrs = rrs.filterMap (parsedUpdate zone) := by
  suffices h : ∀ (acc : List DNSUpdate),
      rrs.foldl (fun acc rr =>
        match parseRR rr zone with
        | .error _ => acc
        | .ok none => acc
        | .ok (some u) => acc ++ [u]) acc = acc ++ rrs.filterMap (parsedUpdate zone) by
    simpa [collectUpdates] using h []
  induction rrs with
  | nil => intro acc; simp
  | cons rr rest ih =>
    intro acc
    simp only [List.foldl_cons, List.filterMap_cons]
    match hp : parseRR rr zone with
    | .error e => simp [parsedUpdate, hp, ih]
    | .ok none => simp [parsedUpdate, hp, ih]
    | .ok (some u) => simp [parsedUpdate, hp, ih]

end Update

namespace Handler

open Update

theorem applyLoop_of_fold_ok {σ E : Type} {apply : σ → DNSUpdate → Except E σ}
    {st'' : σ} {us : List DNSUpdate} : ∀ {st : σ}, applyFold apply st us = .ok st'' →
    applyLoop apply st us = (rcodeSuccess, st'') := by
  induction us with
  | nil =>
    intro st h
    simp only [applyFold, Except.ok.injEq] at h
    simp [applyLoop, h]
  | cons u rest ih =>
    intro st h
    simp only [applyFold] at h
    simp only [applyLoop]
    cases hap : apply st u with
    | error e => rw [hap] at h; cases h
    | ok st1 => rw [hap] at h; exact ih h

theorem applyLoop_of_fold_err {σ E : Type} {apply : σ → DNSUpdate → Except E σ}
    {st' : σ} {u : DNSUpdate} {e : E} {back front : List DNSUpdate} :
    ∀ {st : σ}, applyFold apply st front = .ok st' →
    apply st' u = .error e →
    applyLoop apply st (front ++ u :: back) = (rcodeServerFailure, st') := by
  induction front with
  | nil =>
    intro st h happ
    simp only [applyFold, Except.ok.injEq] at h
    subst h
    simp [applyLoop, happ]
  | cons v rest ih =>
    intro st h happ
    simp only [applyFold] at h
    simp only [List.cons_append, applyLoop]
    cases hap : apply st v with
    | error e2 => rw [hap] at h; cases h
    | ok st1 => rw [hap] at h; exact ih h happ

end Handler

/-- C1: `IsZoneAllowed` normalizes the requested zone and every allowed zone
to end with a single trailing dot and returns `true` iff the normalized
requested zone equals some normalized allowed zone or ends with `"."`
followed by that allowed zone (full-label suffix match); in particular
`isZoneAllowed("evilexample.com.", ["example.com"])` is `false` while
`isZoneAllowed("sub.example.com", ["example.com"])` and
`isZoneAllowed("example.com", ["example.com"])` are `true`. -/
theorem C1_zone_authorization :
    (∀ (zone : Str) (allowed : List Str),
      Config.IsZoneAllowed allowed zone = true ↔
        ∃ az ∈ allowed,
          Config.ensureDot zone = Config.ensureDot az ∨
            ('.' :: Config.ensureDot az) <:+ Config.ensureDot zone) ∧
    Config.IsZoneAllowed ["example.com".toList] "evilexample.com.".toList = false ∧
    Config.IsZoneAllowed ["example.com".toList] "sub.example.com".toList = true ∧
    Config.IsZoneAllowed ["example.com".toList] "example.com".toList = true := by
  refine ⟨?_, by decide, by decide, by decide⟩
  intro zone allowed
  simp only [Config.IsZoneAllowed, List.any_eq_true, Bool.or_eq_true, beq_iff_eq,
    Config.hasSuffix_iff]

open Update in
/-- C2: each record of the update section is translated by the class/TTL
rule — class ANY gives the delete-everything intent for the declared type,
class NONE gives the delete-record intent (both realized by the code's
single `UpdateType.delete`), class IN with TTL 0 gives a delete, class IN
with TTL > 0 gives an upsert (`UpdateType.create`) carrying the record's
address and TTL; a record of any other class is rejected individually and
skipped without failing the whole message; records whose type is neither
A nor AAAA produce no intent. -/
theorem C2_class_ttl_mapping :
    (∀ (rr : RR) (zone : Str),
      (rr.header.cls = classANY ∨ rr.header.cls = classNONE) →
      (rr.header.rrtype = typeA ∨ rr.header.rrtype = typeAAAA) →
      ∃ u, parseRR rr zone = .ok (some u) ∧ u.type = .delete ∧
        u.recordType = rr.header.rrtype ∧ u.name = rr.header.name) ∧
    (∀ (rr : RR) (zone : Str),
      rr.header.cls = classINET → rr.header.ttl = 0 →
      (rr.header.rrtype = typeA ∨ rr.header.rrtype = typeAAAA) →
      ∃ u, parseRR rr zone = .ok (some u) ∧ u.type = .delete ∧
        u.recordType = rr.header.rrtype) ∧
    (∀ (rr : RR) (zone : Str) (ip : Option IP),
      rr.header.cls = classINET → rr.header.ttl ≠ 0 →
      rr.header.rrtype = typeA → rr.rdata = .a ip →
      parseRR rr zone =
        .ok (some ⟨.create, typeA, rr.header.name, zone, ip, rr.header.ttl⟩)) ∧
    (∀ (rr : RR) (zone : Str) (ip : Option IP),
      rr.header.cls = classINET → rr.header.ttl ≠ 0 →
      rr.header.rrtype = typeAAAA → rr.rdata = .aaaa ip →
      parseRR rr zone =
        .ok (some ⟨.create, typeAAAA, rr.header.name, zone, ip, rr.header.ttl⟩)) ∧
    (∀ (rr : RR) (zone : Str),
      rr.header.cls ≠ classANY → rr.header.cls ≠ classNONE → rr.header.cls ≠ classINET →
      parseRR rr zone = .error "unsupported class".toList) ∧
    (∀ (zone : Str) (front back : List RR) (rr : RR) (e : Str),
      parseRR rr zone = .error e →
      collectUpdates zone (front ++ rr :: back) = collectUpdates zone (front ++ back)) ∧
    (∀ (rr : RR) (zone : Str),
      rr.header.rrtype ≠ typeA → rr.header.rrtype ≠ typeAAAA →
      (classifyClass rr.header.cls rr.header.ttl).isSome →
      parseRR rr zone = .ok none) := by
  refine ⟨?c1, ?c2, ?c3, ?c4, ?c5, ?c6, ?c7⟩
  case c1 =>
    rintro rr zone (hcls | hcls) (hty | hty) <;>
      cases hr : rr.rdata <;>
        simp [parseRR, classifyClass, hcls, hty, hr, typeA, typeAAAA,
          classANY, classNONE, classINET]
  case c2 =>
    rintro rr zone hcls httl (hty | hty) <;>
      cases hr : rr.rdata <;>
        simp [parseRR, classifyClass, hcls, httl, hty, hr, typeA, typeAAAA,
          classANY, classNONE, classINET]
  case c3 =>
    intro rr zone ip hcls httl hty hr
    simp [parseRR, classifyClass, hcls, httl, hty, hr, typeA,
      classANY, classNONE, classINET]
  case c4 =>
    intro rr zone ip hcls httl hty hr
    simp [parseRR, classifyClass, hcls, httl, hty, hr, typeA, typeAAAA,
      classANY, classNONE, classINET]
  case c5 =>
    intro rr zone h1 h2 h3
    simp [parseRR, classifyClass, h1, h2, h3]
  case c6 =>
    intro zone front back rr e hp
    have h1 : parsedUpdate zone rr = none := by simp [parsedUpdate, hp]
    simp [collectUpdates_eq_filterMap, List.filterMap_append, List.filterMap_cons, h1]
  case c7 =>
    intro rr zone hA hAAAA hsome
    obtain ⟨ty, hty⟩ := Option.isSome_iff_exists.mp hsome
    simp [parseRR, hty, hA, hAAAA]

open Update in
/-- Witness for C2: the spec's concrete example — an IN-class A record
`router.example.com.` with TTL 300 and address 192.168.1.1 in zone
`example.com.` parses to a single upsert intent — and an
unsupported-class record is dropped from the collected updates. -/
theorem C2_class_ttl_mapping_witness :
    parseRR ⟨⟨"router.example.com.".toList, 1, 1, 300⟩, .a (some [192, 168, 1, 1])⟩
        "example.com.".toList =
      .ok (some ⟨.create, typeA, "router.example.com.".toList, "example.com.".toList,
        some [192, 168, 1, 1], 300⟩) ∧
    collectUpdates "example.com.".toList
        ([] ++ ⟨⟨"x.example.com.".toList, 1, 3, 0⟩, .a none⟩ ::
          [⟨⟨"router.example.com.".toList, 1, 1, 300⟩, .a (some [192, 168, 1, 1])⟩]) =
      collectUpdates "example.com.".toList
        ([] ++ [⟨⟨"router.example.com.".toList, 1, 1, 300⟩, .a (some [192, 168, 1, 1])⟩]) :=
  ⟨C2_class_ttl_mapping.2.2.1 _ _ _ (by decide) (by decide) (by decide) rfl,
   C2_class_ttl_mapping.2.2.2.2.2.1 _ _ _ _ "unsupported class".toList (by decide)⟩

open Update in
/-- C8 counterexample: a class-NONE A record carrying an address parses to
a delete intent that DOES carry that address, and an IN-class A record
with TTL 300 but empty RDATA parses to an upsert intent with a nil
address — both contradicting the claimed invariant. -/
theorem C8_counterexample :
    parseRR ⟨⟨"host.example.com.".toList, 1, 254, 0⟩, .a (some [192, 168, 1, 5])⟩
        "example.com.".toList =
      .ok (some ⟨.delete, 1, "host.example.com.".toList, "example.com.".toList,
        some [192, 168, 1, 5], 0⟩) ∧
    (DNSUpdate.mk .delete 1 "host.example.com.".toList "example.com.".toList
        (some [192, 168, 1, 5]) 0).ip ≠ none ∧
    parseRR ⟨⟨"host.example.com.".toList, 1, 1, 300⟩, .a none⟩ "example.com.".toList =
      .ok (some ⟨.create, 1, "host.example.com.".toList, "example.com.".toList,
        none, 300⟩) := by decide

open Update in
/-- C8 amended: every upsert (create) intent produced by parsing has
TTL > 0 and carries exactly the address field decoded from the record
(nil only when the record carried no address data); a delete intent may
carry an address, but only the record's own decoded address. -/
theorem C8_intent_invariant_amended :
    (∀ (rr : RR) (zone : Str) (u : DNSUpdate),
      parseRR rr zone = .ok (some u) → u.type = .create →
      0 < u.ttl ∧
        ((rr.rdata = .a u.ip ∧ u.recordType = typeA) ∨
          (rr.rdata = .aaaa u.ip ∧ u.recordType = typeAAAA))) ∧
    (∀ (rr : RR) (zone : Str) (u : DNSUpdate),
      parseRR rr zone = .ok (some u) → u.type = .delete →
      u.ip = none ∨ rr.rdata = .a u.ip ∨ rr.rdata = .aaaa u.ip) := by
  constructor
  · intro rr zone u h hc
    obtain ⟨ty, hcl, h1, h2, -, -, h5, hdisj⟩ := parseRR_ok_some h
    have hty : ty = .create := by rw [← h1, hc]
    subst hty
    obtain ⟨-, httl⟩ := classifyClass_eq_create hcl
    refine ⟨?_, ?_⟩
    · rw [h5]; exact Nat.pos_of_ne_zero httl
    · rcases hdisj with ⟨ip, hA, hr, hip⟩ | ⟨ip, hAAAA, hr, hip⟩ | ⟨hd, -⟩
      · exact .inl ⟨hip ▸ hr, hA ▸ h2⟩
      · exact .inr ⟨hip ▸ hr, hAAAA ▸ h2⟩
      · cases hd
  · intro rr zone u h hc
    obtain ⟨ty, hcl, h1, h2, -, -, h5, hdisj⟩ := parseRR_ok_some h
    rcases hdisj with ⟨ip, hA, hr, hip⟩ | ⟨ip, hAAAA, hr, hip⟩ | ⟨hd, hip⟩
    · exact .inr (.inl (hip ▸ hr))
    · exact .inr (.inr (hip ▸ hr))
    · exact .inl hip

open Update in
/-- Witness for the amended C8: the invariant evaluated on the parse of a
concrete IN-class A record with TTL 300. -/
theorem C8_intent_invariant_amended_witness :
    0 < (300 : Nat) ∧
      (((RRData.a (some [10, 0, 0, 7]) : RRData) = .a (some [10, 0, 0, 7]) ∧ typeA = typeA) ∨
        ((RRData.a (some [10, 0, 0, 7]) : RRData) = .aaaa (some [10, 0, 0, 7]) ∧
          typeA = typeAAAA)) :=
  have h := C8_intent_invariant_amended.1
    ⟨⟨"h.example.com.".toList, 1, 1, 300⟩, .a (some [10, 0, 0, 7])⟩ "example.com.".toList
    ⟨.create, typeA, "h.example.com.".toList, "example.com.".toList, some [10, 0, 0, 7], 300⟩
    (by decide) rfl
  ⟨h.1, h.2⟩

open Update Handler in
/-- C3: the dispatcher's reply status is decided by the first failing
stage, in order — non-update opcode gives NotImplemented; a missing zone
section gives FormatError; an unauthorized zone gives Refused; a parse
failure (including zero produced intents, which parsing turns into an
error) gives FormatError; intents are applied strictly in update-section
order and the first failing application gives ServerFailure, keeping the
state produced by the already-applied earlier intents and applying no
later one; if every intent applies the status is Success. -/
theorem C3_dispatch_status_order {σ E : Type} (apply : σ → DNSUpdate → Except E σ)
    (allowed : List Str) (st : σ) :
    (∀ r : Msg, r.opcode ≠ opcodeUpdate →
      ServeDNS apply allowed st r = (rcodeNotImplemented, st)) ∧
    (∀ r : Msg, r.opcode = opcodeUpdate → r.question = [] →
      ServeDNS apply allowed st r = (rcodeFormatError, st)) ∧
    (∀ (r : Msg) (q : Question) (qs : List Question), r.opcode = opcodeUpdate →
      r.question = q :: qs → Config.IsZoneAllowed allowed q.name = false →
      ServeDNS apply allowed st r = (rcodeRefused, st)) ∧
    (∀ (r : Msg) (q : Question) (qs : List Question) (e : Str), r.opcode = opcodeUpdate →
      r.question = q :: qs → Config.IsZoneAllowed allowed q.name = true →
      Parse r = .error e →
      ServeDNS apply allowed st r = (rcodeFormatError, st)) ∧
    (∀ r : Msg, Parse r ≠ .ok []) ∧
    (∀ (r : Msg) (q : Question) (qs : List Question) (us : List DNSUpdate),
      r.opcode = opcodeUpdate → r.question = q :: qs →
      Config.IsZoneAllowed allowed q.name = true → Parse r = .ok us →
      us = r.ns.filterMap (parsedUpdate q.name) ∧
      (∀ st'' : σ, applyFold apply st us = .ok st'' →
        ServeDNS apply allowed st r = (rcodeSuccess, st'')) ∧
      (∀ (front : List DNSUpdate) (u : DNSUpdate) (back : List DNSUpdate) (st' : σ) (e : E),
        us = front ++ u :: back →
        applyFold apply st front = .ok st' → apply st' u = .error e →
        ServeDNS apply allowed st r = (rcodeServerFailure, st'))) := by
  have hParse : ∀ (r : Msg) (us : List DNSUpdate), Parse r = .ok us →
      r.opcode = opcodeUpdate ∧ ∃ q qs, r.question = q :: qs ∧
        us = collectUpdates q.name r.ns ∧ us ≠ [] := by
    intro r us h
    obtain ⟨op, qlist, ns0⟩ := r
    unfold Parse at h
    by_cases h1 : op = opcodeUpdate
    · rw [if_neg (by simp [h1])] at h
      cases qlist with
      | nil => simp at h
      | cons q qs =>
        by_cases h2 : collectUpdates q.name ns0 = []
        · simp [h2] at h
        · simp only [h2, if_false, Except.ok.injEq] at h
          subst h
          exact ⟨h1, q, qs, rfl, rfl, h2⟩
    · rw [if_pos (by simp [h1])] at h
      simp at h
  refine ⟨?_, ?_, ?_, ?_, ?_, ?_⟩
  · intro r h; simp [ServeDNS, h]
  · intro r h1 h2; simp [ServeDNS, h1, h2]
  · intro r q qs h1 h2 h3; simp [ServeDNS, h1, h2, h3]
  · intro r q qs e h1 h2 h3 h4; simp [ServeDNS, h1, h2, h3, h4]
  · intro r h
    obtain ⟨-, q, qs, -, -, hne⟩ := hParse r [] h
    exact hne rfl
  · intro r q qs us h1 h2 h3 h4
    obtain ⟨-, q', qs', hq', hus, -⟩ := hParse r us h4
    have hqq : q' = q := by rw [h2] at hq'; injection hq' with h5; exact h5.symm
    subst hqq
    have hS : ServeDNS apply allowed st r = applyLoop apply st us := by
      simp [ServeDNS, h1, h2, h3, h4]
    refine ⟨by rw [hus, collectUpdates_eq_filterMap], ?_, ?_⟩
    · intro st'' hfold
      rw [hS]
      exact applyLoop_of_fold_ok hfold
    · rintro front u back st' e rfl hfold happ
      rw [hS]
      exact applyLoop_of_fold_err hfold happ

open Update Handler in
/-- Witness for C3: concrete runs of the dispatcher — a query opcode is
answered NotImplemented; a three-record update whose application fails on
the second intent is answered ServerFailure with exactly the first intent
applied; the same message under an always-succeeding apply is answered
Success with all three applied. -/
theorem C3_dispatch_status_order_witness :
    ServeDNS (fun (n : Nat) (_ : DNSUpdate) => (.ok (n + 1) : Except Unit Nat))
        ["example.com".toList] 0 ⟨0, [⟨"example.com.".toList⟩], []⟩ =
      (rcodeNotImplemented, 0) ∧
    ServeDNS (fun (n : Nat) (_ : DNSUpdate) =>
        (if n = 1 then .error () else .ok (n + 1) : Except Unit Nat))
        ["example.com".toList] 0
        ⟨5, [⟨"example.com.".toList⟩],
          [⟨⟨"h1.example.com.".toList, 1, 1, 300⟩, .a (some [10, 0, 0, 1])⟩,
            ⟨⟨"h2.example.com.".toList, 1, 1, 300⟩, .a (some [10, 0, 0, 2])⟩,
            ⟨⟨"h3.example.com.".toList, 1, 1, 300⟩, .a (some [10, 0, 0, 3])⟩]⟩ =
      (rcodeServerFailure, 1) ∧
    ServeDNS (fun (n : Nat) (_ : DNSUpdate) => (.ok (n + 1) : Except Unit Nat))
        ["example.com".toList] 0
        ⟨5, [⟨"example.com.".toList⟩],
          [⟨⟨"h1.example.com.".toList, 1, 1, 300⟩, .a (some [10, 0, 0, 1])⟩,
            ⟨⟨"h2.example.com.".toList, 1, 1, 300⟩, .a (some [10, 0, 0, 2])⟩,
            ⟨⟨"h3.example.com.".toList, 1, 1, 300⟩, .a (some [10, 0, 0, 3])⟩]⟩ =
      (rcodeSuccess, 3) := by
  refine ⟨?_, ?_, ?_⟩
  · exact (C3_dispatch_status_order
      (fun (n : Nat) (_ : DNSUpdate) => (.ok (n + 1) : Except Unit Nat))
      ["example.com".toList] 0).1 ⟨0, [⟨"example.com.".toList⟩], []⟩ (by decide)
  · exact ((C3_dispatch_status_order
      (fun (n : Nat) (_ : DNSUpdate) =>
        (if n = 1 then .error () else .ok (n + 1) : Except Unit Nat))
      ["example.com".toList] 0).2.2.2.2.2
      ⟨5, [⟨"example.com.".toList⟩],
      [⟨⟨"h1.example.com.".toList, 1, 1, 300⟩, .a (some [10, 0, 0, 1])⟩,
        ⟨⟨"h2.example.com.".toList, 1, 1, 300⟩, .a (some [10, 0, 0, 2])⟩,
        ⟨⟨"h3.example.com.".toList, 1, 1, 300⟩, .a (some [10, 0, 0, 3])⟩]⟩
      ⟨"example.com.".toList⟩ []
      [⟨.create, 1, "h1.example.com.".toList, "example.com.".toList, some [10, 0, 0, 1], 300⟩,
        ⟨.create, 1, "h2.example.com.".toList, "example.com.".toList, some [10, 0, 0, 2], 300⟩,
        ⟨.create, 1, "h3.example.com.".toList, "example.com.".toList, some [10, 0, 0, 3], 300⟩]
      rfl rfl (by decide) (by decide)).2.2
      [⟨.create, 1, "h1.example.com.".toList, "example.com.".toList, some [10, 0, 0, 1], 300⟩]
      ⟨.create, 1, "h2.example.com.".toList, "example.com.".toList, some [10, 0, 0, 2], 300⟩
      [⟨.create, 1, "h3.example.com.".toList, "example.com.".toList, some [10, 0, 0, 3], 300⟩]
      1 () rfl (by decide) (by decide)
  · exact ((C3_dispatch_status_order
      (fun (n : Nat) (_ : DNSUpdate) => (.ok (n + 1) : Except Unit Nat))
      ["example.com".toList] 0).2.2.2.2.2
      ⟨5, [⟨"example.com.".toList⟩],
      [⟨⟨"h1.example.com.".toList, 1, 1, 300⟩, .a (some [10, 0, 0, 1])⟩,
        ⟨⟨"h2.example.com.".toList, 1, 1, 300⟩, .a (some [10, 0, 0, 2])⟩,
        ⟨⟨"h3.example.com.".toList, 1, 1, 300⟩, .a (some [10, 0, 0, 3])⟩]⟩
      ⟨"example.com.".toList⟩ []
      [⟨.create, 1, "h1.example.com.".toList, "example.com.".toList, some [10, 0, 0, 1], 300⟩,
        ⟨.create, 1, "h2.example.com.".toList, "example.com.".toList, some [10, 0, 0, 2], 300⟩,
        ⟨.create, 1, "h3.example.com.".toList, "example.com.".toList, some [10, 0, 0, 3], 300⟩]
      rfl rfl (by decide) (by decide)).2.1 3 (by decide)

namespace K8s

theorem mapGet_cons (q : Str × Str) (m : LabelMap) (k : Str) :
    mapGet (q :: m) k = if q.1 == k then some q.2 else mapGet m k := by
  unfold mapGet
  cases hb : (q.1 == k) <;> simp [List.find?_cons, hb]

theorem mapGet_map_ne {m : LabelMap} {k v k' : Str} (hne : k' ≠ k) :
    mapGet (m.map (fun p => if p.1 == k then (k, v) else p)) k' = mapGet m k' := by
  have hne' : k ≠ k' := fun h => hne h.symm
  induction m with
  | nil => rfl
  | cons q rest ih =>
    simp only [beq_iff_eq] at ih
    simp only [List.map_cons, mapGet_cons]
    by_cases hq : q.1 = k
    · simp [hq, hne', ih]
    · by_cases h3 : q.1 = k'
      · simp [hq, h3, hne, ih]
      · simp [hq, h3, ih]

theorem mapGet_map_found {m : LabelMap} {k v : Str}
    (h : (m.find? (fun p => p.1 == k)).isSome = true) :
    mapGet (m.map (fun p => if p.1 == k then (k, v) else p)) k = some v := by
  induction m with
  | nil => simp at h
  | cons q rest ih =>
    simp only [List.map_cons, mapGet_cons]
    by_cases hq : q.1 = k
    · simp [hq]
    · simp only [List.find?_cons] at h
      have hb : (q.1 == k) = false := by simp [hq]
      rw [hb] at h
      have := ih h
      simp only [beq_iff_eq] at this
      simp [hq, this]

theorem mapGet_mapInsert (m : LabelMap) (k v k' : Str) :
    mapGet (mapInsert m k v) k' = if k' = k then some v else mapGet m k' := by
  unfold mapInsert
  by_cases hp : (List.find? (fun p => p.1 == k) m).isSome
  · rw [if_pos hp]
    by_cases hk : k' = k
    · subst hk
      rw [if_pos rfl]
      exact mapGet_map_found hp
    · rw [if_neg hk]
      exact mapGet_map_ne hk
  · rw [if_neg hp]
    have h0 : m.find? (fun p => p.1 == k) = none := by
      cases hf : m.find? (fun p => p.1 == k)
      · rfl
      · rw [hf] at hp; simp at hp
    by_cases hk : k' = k
    · subst hk
      unfold mapGet
      rw [List.find?_append, h0]
      simp [List.find?_cons]
    · rw [if_neg hk]
      unfold mapGet
      rw [List.find?_append]
      have h1 : List.find? (fun p => p.1 == k') [(k, v)] = none := by
        have : (k == k') = false := by simp; exact fun h => hk h.symm
        simp [List.find?_cons, this]
      rw [h1]
      simp

theorem mapGet_buildFold (cl : LabelMap) (m0 : LabelMap) (k : Str) :
    mapGet (cl.foldl (fun m kv => mapInsert m kv.1 kv.2) m0) k =
      (match cl.reverse.find? (fun p => p.1 == k) with
        | some p => some p.2
        | none => mapGet m0 k) := by
  induction cl generalizing m0 with
  | nil => simp
  | cons kv rest ih =>
    simp only [List.foldl_cons, List.reverse_cons, ih, List.find?_append]
    cases hf : rest.reverse.find? (fun p => p.1 == k) with
    | some p => simp [Option.or]
    | none =>
      simp only [Option.none_or]
      rw [mapGet_mapInsert]
      cases hb : (kv.1 == k) with
      | true =>
        have : k = kv.1 := by have := beq_iff_eq.mp hb; rw [this]
        simp [List.find?_cons, hb, this]
      | false =>
        have : ¬ k = kv.1 := by
          intro h; rw [h] at hb; simp at hb
        simp [List.find?_cons, hb, this]

theorem mapEq_refl (m : LabelMap) : mapEq m m = true := by
  unfold mapEq
  rw [List.all_eq_true]
  intro k hk
  exact beq_self_eq_true _

theorem storeGet_eq_notFound {st : ModelStore} {n : Str} :
    storeGet st n = .error .notFound ↔ st.find? (fun p => p.1 == n) = none := by
  unfold storeGet
  cases h : st.find? (fun p => p.1 == n) <;> simp

theorem storeGet_eq_ok {st : ModelStore} {n : Str} {r : Resource}
    (h : storeGet st n = .ok r) :
    ∃ p, st.find? (fun p => p.1 == n) = some p ∧ p.2 = r ∧ p.1 = n := by
  unfold storeGet at h
  cases hf : st.find? (fun p => p.1 == n) with
  | none => rw [hf] at h; cases h
  | some p =>
    rw [hf] at h
    injection h with h2
    exact ⟨p, rfl, h2, by simpa using List.find?_some hf⟩

end K8s


theorem hasSuffix_cons_self (z : Str) : Config.hasSuffix z ('.' :: z) = false := by
  cases hb : Config.hasSuffix z ('.' :: z)
  · rfl
  · exfalso
    have hsuf := (Config.hasSuffix_iff _ _).mp hb
    have hlen := List.IsSuffix.length_le hsuf
    simp at hlen

namespace K8s

theorem stripTrailingDot_eq (s : Str) :
    stripTrailingDot s = if s.getLast? = some '.' then s.dropLast else s := by
  simp [stripTrailingDot, beq_iff_eq]

theorem isAlphanumericLower_iff (c : Char) :
    isAlphanumericLower c = true ↔ ('a' ≤ c ∧ c ≤ 'z') ∨ ('0' ≤ c ∧ c ≤ '9') := by
  simp [isAlphanumericLower, Bool.or_eq_true, Bool.and_eq_true, decide_eq_true_eq]

theorem k8sChar_eq (c : Char) :
    (if isAlphanumericLower c || c == '-' then some c
      else if c == '.' || c == '_' || c == ':' then some '-'
      else none) =
    (if c = '.' ∨ c = '_' ∨ c = ':' then some '-'
      else if ('a' ≤ c ∧ c ≤ 'z') ∨ ('0' ≤ c ∧ c ≤ '9') ∨ c = '-' then some c
      else none) := by
  by_cases h1 : c = '.'
  · subst h1; decide
  by_cases h2 : c = '_'
  · subst h2; decide
  by_cases h3 : c = ':'
  · subst h3; decide
  simp only [Bool.or_eq_true, beq_iff_eq, isAlphanumericLower_iff]
  by_cases h4 : ('a' ≤ c ∧ c ≤ 'z') ∨ ('0' ≤ c ∧ c ≤ '9') <;>
    by_cases h5 : c = '-' <;>
      simp [h1, h2, h3, h4, h5]

theorem dnsNameToK8sName_eq (s : Str) :
    dnsNameToK8sName s =
      (s.map Char.toLower).filterMap (fun c =>
        if c = '.' ∨ c = '_' ∨ c = ':' then some '-'
        else if ('a' ≤ c ∧ c ≤ 'z') ∨ ('0' ≤ c ∧ c ≤ '9') ∨ c = '-' then some c
        else none) := by
  unfold dnsNameToK8sName
  congr 1
  funext c
  exact k8sChar_eq c

theorem specCore_eq (s : Str) :
    specSanitizeCore s = dnsNameToK8sName (stripTrailingDot s) := by
  rw [dnsNameToK8sName_eq, stripTrailingDot_eq]
  rfl

theorem sanitizeResourceName_eq_spec (s : Str) :
    sanitizeResourceName s = (specMarkerStepAmended (specSanitizeCore s)).take 253 := by
  rw [specCore_eq]
  unfold sanitizeResourceName specMarkerStepAmended
  cases hn : dnsNameToK8sName (stripTrailingDot s) with
  | nil => simp [hn]
  | cons c rest =>
    by_cases ha : isAlphanumericLower c = true
    · have hprop := (isAlphanumericLower_iff c).mp ha
      simp [hn, ha, hprop]
    · have hprop : ¬ (('a' ≤ c ∧ c ≤ 'z') ∨ ('0' ≤ c ∧ c ≤ '9')) :=
        fun hp => ha ((isAlphanumericLower_iff c).mpr hp)
      simp [hn, ha, hprop]

end K8s

open Update K8s in
/-- C4: upserting against a store with no resource under the derived
identifier creates the desired resource and reports changed; re-applying
the identical intent (same sender) finds the stored resource deep-equal,
performs no write, reports unchanged, and leaves the store exactly as the
first apply left it; when the existing resource differs, the update is
issued carrying the existing resource's concurrency token and reports
changed. -/
theorem C4_idempotent_upsert (cl : LabelMap) (addr : Str) (st : ModelStore)
    (upd : DNSUpdate) (dname : Str) (desired : Resource)
    (hd : dname = sanitizeResourceName (GetHostname upd))
    (hr : desired = desiredResource cl addr dname upd) :
    (storeGet st dname = .error .notFound →
      createOrUpdateEndpoint modelOps cl addr st upd = .ok (true, st ++ [(dname, desired)]) ∧
      createOrUpdateEndpoint modelOps cl addr (st ++ [(dname, desired)]) upd =
        .ok (false, st ++ [(dname, desired)])) ∧
    (∀ existing : Resource, storeGet st dname = .ok existing →
      compareEndpoint existing desired = (true, true) →
      createOrUpdateEndpoint modelOps cl addr st upd = .ok (false, st)) ∧
    (∀ existing : Resource, storeGet st dname = .ok existing →
      compareEndpoint existing desired ≠ (true, true) →
      ∃ st', storeUpdate st { desired with resourceVersion := existing.resourceVersion } = .ok st' ∧
        createOrUpdateEndpoint modelOps cl addr st upd = .ok (true, st')) := by
  subst hd
  subst hr
  refine ⟨?_, ?_, ?_⟩
  · intro h
    have hf := storeGet_eq_notFound.mp h
    constructor
    · simp [createOrUpdateEndpoint, createOrUpdateAt, modelOps, h, isNotFoundError,
        storeCreate, desiredResource, hf]
    · have hget : storeGet
          (st ++ [(sanitizeResourceName (GetHostname upd),
            desiredResource cl addr (sanitizeResourceName (GetHostname upd)) upd)])
          (sanitizeResourceName (GetHostname upd)) =
          .ok (desiredResource cl addr (sanitizeResourceName (GetHostname upd)) upd) := by
        unfold storeGet
        rw [List.find?_append, hf]
        simp [List.find?_cons]
      simp [createOrUpdateEndpoint, createOrUpdateAt, modelOps, hget,
        compareEndpoint, mapEq_refl]
  · intro existing hget hcmp
    simp [createOrUpdateEndpoint, createOrUpdateAt, modelOps, hget, hcmp]
  · intro existing hget hcmp
    obtain ⟨p, hfp, hp2, hp1⟩ := storeGet_eq_ok hget
    have hb : ((compareEndpoint existing
        (desiredResource cl addr (sanitizeResourceName (GetHostname upd)) upd)).1 &&
        (compareEndpoint existing
          (desiredResource cl addr (sanitizeResourceName (GetHostname upd)) upd)).2) = false := by
      rcases hC : compareEndpoint existing
          (desiredResource cl addr (sanitizeResourceName (GetHostname upd)) upd) with ⟨b1, b2⟩
      rw [hC] at hcmp
      cases b1 <;> cases b2 <;> simp_all
    have hupd : storeUpdate st
        { desiredResource cl addr (sanitizeResourceName (GetHostname upd)) upd with
          resourceVersion := existing.resourceVersion } =
        .ok (st.map fun q =>
          if q.1 == sanitizeResourceName (GetHostname upd) then
            (sanitizeResourceName (GetHostname upd),
              { desiredResource cl addr (sanitizeResourceName (GetHostname upd)) upd with
                resourceVersion := existing.resourceVersion + 1 })
          else q) := by
      unfold storeUpdate
      simp only [desiredResource]
      rw [hfp]
      simp [hp2]
    refine ⟨_, hupd, ?_⟩
    simp [createOrUpdateEndpoint, createOrUpdateAt, modelOps, hget, hb, hupd]

open Update K8s in
/-- Witness for C4: a concrete upsert against the empty store creates the
resource with changed = true, and the identical second apply reports
changed = false leaving the store untouched. -/
theorem C4_idempotent_upsert_witness :
    (createOrUpdateEndpoint modelOps [] "192.168.0.9:51234".toList []
        ⟨.create, 1, "router.example.com.".toList, "example.com.".toList,
          some [192, 168, 1, 1], 300⟩ =
      .ok (true, [] ++ [(sanitizeResourceName (GetHostname
          ⟨.create, 1, "router.example.com.".toList, "example.com.".toList,
            some [192, 168, 1, 1], 300⟩),
        desiredResource [] "192.168.0.9:51234".toList
          (sanitizeResourceName (GetHostname
            ⟨.create, 1, "router.example.com.".toList, "example.com.".toList,
              some [192, 168, 1, 1], 300⟩))
          ⟨.create, 1, "router.example.com.".toList, "example.com.".toList,
            some [192, 168, 1, 1], 300⟩)])) ∧
    (createOrUpdateEndpoint modelOps [] "192.168.0.9:51234".toList
        ([] ++ [(sanitizeResourceName (GetHostname
            ⟨.create, 1, "router.example.com.".toList, "example.com.".toList,
              some [192, 168, 1, 1], 300⟩),
          desiredResource [] "192.168.0.9:51234".toList
            (sanitizeResourceName (GetHostname
              ⟨.create, 1, "router.example.com.".toList, "example.com.".toList,
                some [192, 168, 1, 1], 300⟩))
            ⟨.create, 1, "router.example.com.".toList, "example.com.".toList,
              some [192, 168, 1, 1], 300⟩)])
        ⟨.create, 1, "router.example.com.".toList, "example.com.".toList,
          some [192, 168, 1, 1], 300⟩ =
      .ok (false, [] ++ [(sanitizeResourceName (GetHostname
          ⟨.create, 1, "router.example.com.".toList, "example.com.".toList,
            some [192, 168, 1, 1], 300⟩),
        desiredResource [] "192.168.0.9:51234".toList
          (sanitizeResourceName (GetHostname
            ⟨.create, 1, "router.example.com.".toList, "example.com.".toList,
              some [192, 168, 1, 1], 300⟩))
          ⟨.create, 1, "router.example.com.".toList, "example.com.".toList,
            some [192, 168, 1, 1], 300⟩)])) :=
  (C4_idempotent_upsert [] "192.168.0.9:51234".toList []
    ⟨.create, 1, "router.example.com.".toList, "example.com.".toList,
      some [192, 168, 1, 1], 300⟩ _ _ rfl rfl).1 (by decide)

open Update K8s in
/-- C5: deleting a derived identifier that is absent from the store is a
success (a not-found result is swallowed); any other delete error is
returned to the caller. -/
theorem C5_idempotent_delete :
    (∀ (st : ModelStore) (upd : DNSUpdate),
      storeGet st (sanitizeResourceName (GetHostname upd)) = .error .notFound →
      deleteEndpoint modelOps st upd = .ok st) ∧
    (∀ (σ : Type) (ops : StoreOps σ) (st : σ) (upd : DNSUpdate) (e : StoreErr),
      ops.delete st (sanitizeResourceName (GetHostname upd)) = .error e →
      isNotFoundError e = true →
      deleteEndpoint ops st upd = .ok st) ∧
    (∀ (σ : Type) (ops : StoreOps σ) (st : σ) (upd : DNSUpdate) (e : StoreErr),
      ops.delete st (sanitizeResourceName (GetHostname upd)) = .error e →
      isNotFoundError e = false →
      deleteEndpoint ops st upd = .error "failed to delete DNSEndpoint".toList) := by
  refine ⟨?_, ?_, ?_⟩
  · intro st upd h
    have hf := storeGet_eq_notFound.mp h
    have hdel : storeDelete st (sanitizeResourceName (GetHostname upd)) = .error .notFound := by
      unfold storeDelete
      simp [hf]
    simp [deleteEndpoint, deleteByName, modelOps, hdel, isNotFoundError]
  · intro σ ops st upd e h hnf
    simp [deleteEndpoint, deleteByName, h, hnf]
  · intro σ ops st upd e h hnf
    simp [deleteEndpoint, deleteByName, h, hnf]

open Update K8s in
/-- Witness for C5: deleting a hostname that was never stored succeeds on
the empty store. -/
theorem C5_idempotent_delete_witness :
    deleteEndpoint modelOps []
      ⟨.delete, 1, "gone.example.com.".toList, "example.com.".toList, none, 0⟩ = .ok [] :=
  C5_idempotent_delete.1 []
    ⟨.delete, 1, "gone.example.com.".toList, "example.com.".toList, none, 0⟩ (by decide)

open Update K8s in
/-- C6 counterexample: the reconciler derives the identifier from the
intent's HOSTNAME (`GetHostname`, the record name with the zone suffix
stripped), not from the intent's record name as claimed — for the intent
`router.example.com.` in zone `example.com.` the derived identifier is
`router`, while the claim's transform applied to the record name gives
`router-example-com`; both the delete path and the upsert path act on
`router`.  Two further details of the transform diverge: an empty
sanitization result (`"@"`) gets no marker prefix, and the label
transform has no marker step at all (`"_a"` gives `-a`, not `dns--a`). -/
theorem C6_counterexample :
    sanitizeResourceName (GetHostname ⟨.create, 1, "router.example.com.".toList,
        "example.com.".toList, some [192, 168, 1, 1], 300⟩) = "router".toList ∧
    specSanitizeName253 "router.example.com.".toList = "router-example-com".toList ∧
    sanitizeResourceName (GetHostname ⟨.create, 1, "router.example.com.".toList,
        "example.com.".toList, some [192, 168, 1, 1], 300⟩) ≠
      specSanitizeName253 "router.example.com.".toList ∧
    deleteEndpoint modelOps [] ⟨.create, 1, "router.example.com.".toList,
        "example.com.".toList, some [192, 168, 1, 1], 300⟩ =
      deleteByName modelOps [] "router".toList ∧
    createOrUpdateEndpoint modelOps [] "10.0.0.1:1".toList []
        ⟨.create, 1, "router.example.com.".toList, "example.com.".toList,
          some [192, 168, 1, 1], 300⟩ =
      createOrUpdateAt modelOps [] "10.0.0.1:1".toList [] "router".toList
        ⟨.create, 1, "router.example.com.".toList, "example.com.".toList,
          some [192, 168, 1, 1], 300⟩ ∧
    sanitizeResourceName "@".toList = [] ∧
    specSanitizeName253 "@".toList = "dns-".toList ∧
    sanitizeResourceName "@".toList ≠ specSanitizeName253 "@".toList ∧
    sanitizeLabel "_a".toList = "-a".toList ∧
    specSanitizeLabel63 "_a".toList = "dns--a".toList ∧
    sanitizeLabel "_a".toList ≠ specSanitizeLabel63 "_a".toList := by decide

open Update K8s in
/-- C6 amended: the reconciler's derived resource identifier equals the
transform applied to the intent's HOSTNAME — the record name with the
asserted zone suffix stripped by `GetHostname` ("@" at the zone apex) —
in both the upsert and the delete path; the transform is: strip a
trailing dot, lower-case, map `.`/`_`/`:` to `-`, drop other
non-alphanumeric-non-hyphen characters, prepend the marker prefix only
when the result is nonempty and starts with a non-alphanumeric
character, truncate to 253; the label-value transform is the same
strip/lower/map/drop computation WITHOUT the marker step, truncated to
63; both outputs respect their length ceilings. -/
theorem C6_sanitization_amended :
    (∀ {σ : Type} (ops : StoreOps σ) (cl : LabelMap) (addr : Str) (st : σ)
        (upd : DNSUpdate),
      createOrUpdateEndpoint ops cl addr st upd =
        createOrUpdateAt ops cl addr st
          ((specMarkerStepAmended (specSanitizeCore (GetHostname upd))).take 253) upd ∧
      deleteEndpoint ops st upd =
        deleteByName ops st
          ((specMarkerStepAmended (specSanitizeCore (GetHostname upd))).take 253)) ∧
    (∀ s : Str, sanitizeResourceName s = (specMarkerStepAmended (specSanitizeCore s)).take 253) ∧
    (∀ s : Str, sanitizeLabel s = (specSanitizeCore s).take 63) ∧
    sanitizeResourceName "Test_Host.example.com.".toList = "test-host-example-com".toList ∧
    (∀ s : Str, (sanitizeResourceName s).length ≤ 253 ∧ (sanitizeLabel s).length ≤ 63) := by
  refine ⟨?_, sanitizeResourceName_eq_spec, ?_, by decide, ?_⟩
  · intro σ ops cl addr st upd
    constructor
    · unfold createOrUpdateEndpoint
      rw [sanitizeResourceName_eq_spec]
    · unfold deleteEndpoint
      rw [sanitizeResourceName_eq_spec]
  · intro s
    rw [specCore_eq]
    rfl
  · intro s
    exact ⟨List.length_take_le _ _, List.length_take_le _ _⟩

open Update K8s in
/-- C9 counterexample: with no custom labels configured, the desired
resource's label map still answers at the ask-by key (derived from the
sender's address), a key distinct from the managed-by key and the zone
key — so the label set is not exactly managed-by + zone + custom. -/
theorem C9_counterexample :
    mapGet (desiredResource [] "10.1.2.3:5353".toList "router".toList
        ⟨.create, 1, "router.example.com.".toList, "example.com.".toList,
          some [192, 168, 1, 1], 300⟩).labels askByKey = some "10-1-2-3".toList ∧
    askByKey ≠ managedByKey ∧ askByKey ≠ zoneLabelKey := by decide

open Update K8s in
/-- C9 amended: the desired resource has exactly one endpoint entry
`{dnsName: intent.name, recordType A/AAAA per the intent, recordTTL:
intent.ttl, targets: [intent.address]}`, and its label map answers every
key by first consulting the custom labels (last-inserted wins, so custom
labels overwrite defaults) and then the three default labels: the fixed
managed-by label, the zone label, and the ask-by label derived from the
sender's address. -/
theorem C9_desired_state_amended :
    ∀ (cl : LabelMap) (addr rname : Str) (upd : DNSUpdate),
    (desiredResource cl addr rname upd).endpoints =
      [⟨upd.name, (if upd.recordType = 28 then "AAAA".toList else "A".toList), upd.ttl,
        [upd.ip.getD []]⟩] ∧
    ∀ k, mapGet (desiredResource cl addr rname upd).labels k =
      (match cl.reverse.find? (fun p => p.1 == k) with
        | some p => some p.2
        | none => mapGet [(managedByKey, managedByValue),
            (zoneLabelKey, sanitizeLabel upd.zone),
            (askByKey, sanitizeLabel (hostPart addr))] k) := by
  intro cl addr rname upd
  exact ⟨rfl, fun k => mapGet_buildFold cl _ k⟩

open Update K8s in
/-- C10: when the record name equals the asserted zone after the
single-trailing-dot normalization, the hostname extraction returns "@",
sanitizing "@" yields the empty identifier, and both the upsert and the
delete path act on that empty identifier. -/
theorem C10_zone_apex {σ : Type} (ops : StoreOps σ) (cl : LabelMap) (addr : Str)
    (st : σ) (u : DNSUpdate)
    (h : trimSuffix u.name ['.'] = trimSuffix u.zone ['.']) :
    GetHostname u = ['@'] ∧
    sanitizeResourceName (GetHostname u) = [] ∧
    deleteEndpoint ops st u = deleteByName ops st [] ∧
    createOrUpdateEndpoint ops cl addr st u = createOrUpdateAt ops cl addr st [] u := by
  have h1 : GetHostname u = ['@'] := by
    simp [GetHostname, h, hasSuffix_cons_self]
  have h2 : sanitizeResourceName (['@'] : Str) = [] := by decide
  refine ⟨h1, ?_, ?_, ?_⟩
  · rw [h1]; exact h2
  · unfold deleteEndpoint; rw [h1, h2]
  · unfold createOrUpdateEndpoint; rw [h1, h2]

open Update K8s in
/-- Witness for C10: a zone-apex A record for `example.com.` in zone
`example.com.` maps to hostname "@" and the empty identifier, in both the
upsert and the delete path. -/
theorem C10_zone_apex_witness :
    GetHostname ⟨.create, 1, "example.com.".toList, "example.com.".toList,
        some [192, 168, 1, 1], 300⟩ = ['@'] ∧
    sanitizeResourceName (GetHostname ⟨.create, 1, "example.com.".toList,
        "example.com.".toList, some [192, 168, 1, 1], 300⟩) = [] ∧
    deleteEndpoint modelOps [] ⟨.create, 1, "example.com.".toList,
        "example.com.".toList, some [192, 168, 1, 1], 300⟩ =
      deleteByName modelOps [] [] ∧
    createOrUpdateEndpoint modelOps [] "192.168.0.9:51234".toList []
        ⟨.create, 1, "example.com.".toList, "example.com.".toList,
          some [192, 168, 1, 1], 300⟩ =
      createOrUpdateAt modelOps [] "192.168.0.9:51234".toList [] []
        ⟨.create, 1, "example.com.".toList, "example.com.".toList,
          some [192, 168, 1, 1], 300⟩ :=
  C10_zone_apex modelOps [] "192.168.0.9:51234".toList []
    ⟨.create, 1, "example.com.".toList, "example.com.".toList,
      some [192, 168, 1, 1], 300⟩ (by decide)


open Tsig in
/-- C7 counterexample: (a) when the attacker-chosen key name on the TSIG
record happens to equal the configured shared secret, the key-name
mismatch error echoes it, so the error text DOES contain the configured
shared secret; (b) a message whose TSIG record matches the configured
key and algorithm but whose serialization (`msg.Pack()`) fails is
rejected with a "failed to pack message" error — a fifth failure
condition outside the claim's list of four. -/
theorem C7_counterexample :
    Validate (fun _ _ _ => none)
        ⟨"k".toList, "topsecret".toList, "hmac-sha256".toList⟩
        ⟨some ⟨"topsecret".toList, "hmac-sha256.".toList⟩, .ok []⟩ [] =
      some "TSIG key name mismatch: expected k, got topsecret".toList ∧
    "topsecret".toList <:+: "TSIG key name mismatch: expected k, got topsecret".toList ∧
    Validate (fun _ _ _ => none)
        ⟨"k".toList, "topsecret".toList, "hmac-sha256".toList⟩
        ⟨some ⟨"k.".toList, "hmac-sha256.".toList⟩, .error "overflow".toList⟩ [] =
      some "failed to pack message: overflow".toList := by
  decide

open Tsig in
/-- C7 amended: validation succeeds exactly when a TSIG record is
present, its key name equals the configured key name with or without the
trailing dot, its algorithm equals the configured algorithm name, the
message serializes, and the signature verifies; every error is one of
exactly five shapes — missing record, key-name mismatch, algorithm
mismatch, serialization failure, or verification failure — each naming
the failing step and built only from the expected and received values of
that step (so it can contain the secret only when the secret occurs in
one of those values); the spec's concrete wrong-key scenario produces
the key-name-mismatch error. -/
theorem C7_auth_validation_amended :
    (∀ (verify : Str → Str → Str → Option Str) (v : Validator) (msg : TMsg) (mac : Str),
      Validate verify v msg mac = none ↔
        ∃ t, msg.tsig = some t ∧
          (t.name = v.keyName ++ ['.'] ∨ t.name = v.keyName) ∧
          t.algorithm = getAlgorithmName v ∧
          ∃ buf, msg.pack = .ok buf ∧ verify buf v.secret mac = none) ∧
    (∀ (verify : Str → Str → Str → Option Str) (v : Validator) (msg : TMsg)
        (mac : Str) (e : Str), Validate verify v msg mac = some e →
      e = "message does not contain TSIG record".toList ∨
      (∃ t, msg.tsig = some t ∧
        e = "TSIG key name mismatch: expected ".toList ++ v.keyName ++
          ", got ".toList ++ t.name) ∨
      (∃ t, msg.tsig = some t ∧
        e = "TSIG algorithm mismatch: expected ".toList ++ getAlgorithmName v ++
          ", got ".toList ++ t.algorithm) ∨
      (∃ perr, msg.pack = .error perr ∧
        e = "failed to pack message: ".toList ++ perr) ∨
      (∃ buf ve, msg.pack = .ok buf ∧ verify buf v.secret mac = some ve ∧
        e = "TSIG verification failed: ".toList ++ ve)) ∧
    Validate (fun _ _ _ => none)
        ⟨"opnsense-ddns".toList, "s3cr3t".toList, "hmac-sha256".toList⟩
        ⟨some ⟨"wrong-key".toList, "hmac-sha256.".toList⟩, .ok []⟩ [] =
      some "TSIG key name mismatch: expected opnsense-ddns, got wrong-key".toList := by
  refine ⟨?_, ?_, by decide⟩
  · intro verify v msg mac
    cases hm : msg.tsig with
    | none => simp [Validate, hm]
    | some t =>
      simp only [Validate, hm]
      by_cases hn : t.name ≠ v.keyName ++ ['.'] ∧ t.name ≠ v.keyName
      · rw [if_pos hn]
        simp [hn.1, hn.2]
      · rw [if_neg hn]
        rw [not_and_or, not_not, not_not] at hn
        by_cases ha : t.algorithm ≠ getAlgorithmName v
        · rw [if_pos ha]
          simp [ha]
        · rw [if_neg ha]
          rw [not_not] at ha
          cases hp : msg.pack with
          | error perr => simp [hp]
          | ok buf =>
            cases hv : verify buf v.secret mac with
            | some e => simp [hp, hv]
            | none => simp [hp, hv, hn, ha]
  · intro verify v msg mac e h
    cases hm : msg.tsig with
    | none =>
      simp only [Validate, hm] at h
      injection h with h1
      exact .inl h1.symm
    | some t =>
      simp only [Validate, hm] at h
      by_cases hn : t.name ≠ v.keyName ++ ['.'] ∧ t.name ≠ v.keyName
      · rw [if_pos hn] at h
        injection h with h1
        exact .inr (.inl ⟨t, rfl, h1.symm⟩)
      · rw [if_neg hn] at h
        by_cases ha : t.algorithm ≠ getAlgorithmName v
        · rw [if_pos ha] at h
          injection h with h1
          exact .inr (.inr (.inl ⟨t, rfl, h1.symm⟩))
        · rw [if_neg ha] at h
          cases hp : msg.pack with
          | error perr =>
            simp only [hp] at h
            injection h with h1
            exact .inr (.inr (.inr (.inl ⟨perr, rfl, h1.symm⟩)))
          | ok buf =>
            simp only [hp] at h
            cases hv : verify buf v.secret mac with
            | some ve =>
              simp only [hv] at h
              injection h with h1
              exact .inr (.inr (.inr (.inr ⟨buf, ve, rfl, hv, h1.symm⟩)))
            | none => simp only [hv] at h; cases h

open Tsig in
/-- Witness for the amended C7: the error-shape characterization applied
to a message without a TSIG record. -/
theorem C7_auth_validation_amended_witness :
    "message does not contain TSIG record".toList =
        "message does not contain TSIG record".toList ∨
      (∃ t, (⟨none, .ok []⟩ : TMsg).tsig = some t ∧
        "message does not contain TSIG record".toList =
          "TSIG key name mismatch: expected ".toList ++ "opnsense-ddns".toList ++
            ", got ".toList ++ t.name) ∨
      (∃ t, (⟨none, .ok []⟩ : TMsg).tsig = some t ∧
        "message does not contain TSIG record".toList =
          "TSIG algorithm mismatch: expected ".toList ++
            getAlgorithmName ⟨"opnsense-ddns".toList, "s3cr3t".toList,
              "hmac-sha256".toList⟩ ++
            ", got ".toList ++ t.algorithm) ∨
      (∃ perr, (⟨none, .ok []⟩ : TMsg).pack = .error perr ∧
        "message does not contain TSIG record".toList =
          "failed to pack message: ".toList ++ perr) ∨
      (∃ buf ve, (⟨none, .ok []⟩ : TMsg).pack = .ok buf ∧
        (fun (_ _ _ : Str) => (none : Option Str)) buf "s3cr3t".toList [] = some ve ∧
        "message does not contain TSIG record".toList =
          "TSIG verification failed: ".toList ++ ve) :=
  C7_auth_validation_amended.2.1 (fun _ _ _ => none)
    ⟨"opnsense-ddns".toList, "s3cr3t".toList, "hmac-sha256".toList⟩
    ⟨none, .ok []⟩ [] "message does not contain TSIG record".toList (by decide)

end DdnsBridge
